import Mathlib

/-!
Shallow embedding of the squirtle SVG parsing core (matrix.py, parse.py,
svg.py), with theorems settling the specification claims about it.

Numeric values are modelled with exact rationals (`ℚ`) except where the
source's trigonometric functions force real numbers.  Python operations
that can raise an exception are modelled with `Option`/`Except`, `none`
(resp. `.error`) standing for an exception escaping the modelled code.
-/

namespace Squirtle

/-- Affine matrix from `matrix.py`.  The six fields are the entries of
`Matrix.values`: `a = values[0]`, `b = values[1]`, `c = values[2]`,
`d = values[3]`, `e = values[4]` (translate x), `f = values[5]`
(translate y).  The map sends `(x, y)` to `(a*x + c*y + e, b*x + d*y + f)`
(`Matrix.__call__`). -/
structure Matrix (α : Type) where
  a : α
  b : α
  c : α
  d : α
  e : α
  f : α
deriving DecidableEq, Repr

/-- The determinant `values[0] * values[3] - values[1] * values[2]`
computed at the top of `Matrix.inverse` (matrix.py line 60). -/
def Matrix.det (m : Matrix ℚ) : ℚ := m.a * m.d - m.b * m.c

/-- `Matrix.inverse` (matrix.py lines 59-63).  Every entry is divided by
the determinant `d`; in Python a zero float determinant makes each of
those divisions raise `ZeroDivisionError`, modelled here by `none`. -/
def Matrix.inverse (m : Matrix ℚ) : Option (Matrix ℚ) :=
  if m.det = 0 then none
  else some
    { a := m.d / m.det
      b := -m.b / m.det
      c := -m.c / m.det
      d := m.a / m.det
      e := (m.c * m.f - m.d * m.e) / m.det
      f := (m.b * m.e - m.a * m.f) / m.det }

/-- `Matrix.__mul__` (matrix.py lines 65-68): with `self = (a,b,c,d,e,f)`
and `other = (u,v,w,x,y,z)` the product is
`[a*u + c*v, b*u + d*v, a*w + c*x, b*w + d*x, a*y + c*z + e, b*y + d*z + f]`. -/
def Matrix.mul (m n : Matrix ℚ) : Matrix ℚ :=
  { a := m.a * n.a + m.c * n.b
    b := m.b * n.a + m.d * n.b
    c := m.a * n.c + m.c * n.d
    d := m.b * n.c + m.d * n.d
    e := m.a * n.e + m.c * n.f + m.e
    f := m.b * n.e + m.d * n.f + m.f }

/-- The identity matrix `[1, 0, 0, 1, 0, 0]`, the default value of
`Matrix.values` (matrix.py line 9). -/
def Matrix.idM : Matrix ℚ := ⟨1, 0, 0, 1, 0, 0⟩

/-- `Matrix.__call__` (matrix.py lines 45-47), applying the affine map to
a point. -/
def Matrix.apply {α : Type} [CommRing α] (m : Matrix α) (p : α × α) : α × α :=
  (m.a * p.1 + m.c * p.2 + m.e, m.b * p.1 + m.d * p.2 + m.f)

/-- The `rotate(` branch of `Matrix.__init__` (matrix.py lines 19-41):
`angle = math.radians(angle_deg)`, translation
`(-cx*cos + cy*sin + cx, -cx*sin - cy*cos + cy)` and values
`[cos, sin, -sin, cos, translate_x, translate_y]`. -/
noncomputable def rotateMatrix (angle_deg cx cy : ℝ) : Matrix ℝ :=
  { a := Real.cos (angle_deg * (Real.pi / 180))
    b := Real.sin (angle_deg * (Real.pi / 180))
    c := -Real.sin (angle_deg * (Real.pi / 180))
    d := Real.cos (angle_deg * (Real.pi / 180))
    e := (-cx * Real.cos (angle_deg * (Real.pi / 180))) +
      (cy * Real.sin (angle_deg * (Real.pi / 180))) + cx
    f := (-cx * Real.sin (angle_deg * (Real.pi / 180))) -
      (cy * Real.cos (angle_deg * (Real.pi / 180))) + cy }

/-- Argument handling of the `rotate(` branch: three parsed numbers give
angle and pivot; the `except ValueError` fallback (matrix.py lines 29-33)
takes the first number as the angle and pivot `(0, 0)`; an empty argument
list would raise `IndexError` on `[0]`, modelled by `none`. -/
noncomputable def rotateParse (args : List ℝ) : Option (Matrix ℝ) :=
  match args with
  | [angle_deg, cx, cy] => some (rotateMatrix angle_deg cx cy)
  | angle_deg :: _ => some (rotateMatrix angle_deg 0 0)
  | [] => none

/-! ### parse.py -/

/-- Characters stripped by Python `str.strip()`. -/
def isPyWhitespace (ch : Char) : Bool :=
  ch = ' ' || ch = '\t' || ch = '\n' || ch = '\r' || ch = '\x0b' || ch = '\x0c'

/-- Python `str.strip()`: remove leading and trailing whitespace. -/
def pyStrip (s : List Char) : List Char :=
  ((s.dropWhile isPyWhitespace).reverse.dropWhile isPyWhitespace).reverse

/-- Python `str.split(sep)` with an explicit one-character separator:
splits at every occurrence, keeping empty fields. -/
def splitOnChar (sep : Char) : List Char → List (List Char)
  | [] => [[]]
  | ch :: rest =>
    if ch = sep then [] :: splitOnChar sep rest
    else
      match splitOnChar sep rest with
      | [] => [[ch]]
      | g :: gs => (ch :: g) :: gs

/-- Decimal digit run for `int(x)`: nonempty all-digit strings only. -/
def parseDigits (s : List Char) : Option ℤ :=
  match s with
  | [] => none
  | _ =>
    if s.all Char.isDigit then
      some (s.foldl (fun acc ch => acc * 10 + ((ch.toNat : ℤ) - 48)) 0)
    else none

/-- Python `int(x)` on a string: surrounding whitespace and an optional
sign are accepted; anything else raises `ValueError` (`none`). -/
def pyInt (s : List Char) : Option ℤ :=
  match pyStrip s with
  | '+' :: rest => parseDigits rest
  | '-' :: rest => (parseDigits rest).map Neg.neg
  | t => parseDigits t

/-- Value of one hexadecimal digit, as used by `int(x, 16)`. -/
def hexDigitVal (ch : Char) : Option ℤ :=
  if ch.isDigit then some ((ch.toNat : ℤ) - 48)
  else if 'a' ≤ ch && ch ≤ 'f' then some ((ch.toNat : ℤ) - 87)
  else if 'A' ≤ ch && ch ≤ 'F' then some ((ch.toNat : ℤ) - 55)
  else none

/-- Python `int(x, 16)` on the slices cut by `parse_color`: nonempty
all-hex-digit strings; anything else raises `ValueError` (`none`). -/
def pyIntHex (s : List Char) : Option ℤ :=
  match s with
  | [] => none
  | _ =>
    if s.all (fun ch => (hexDigitVal ch).isSome) then
      some (s.foldl (fun acc ch => acc * 16 + ((hexDigitVal ch).getD 0)) 0)
    else none

/-- The Python dict assignment `sdict[key] = value`: overwrite the value
of an existing key in place, else append the new binding. -/
def styleInsert (d : List (List Char × List Char)) (k v : List Char) :
    List (List Char × List Char) :=
  if d.any (fun p => p.1 = k) then
    d.map (fun p => if p.1 = k then (k, v) else p)
  else d ++ [(k, v)]

/-- The loop body of `parse_style` (parse.py lines 10-13) over the list
of `;`-separated items: items with a `:` are unpacked by
`key, value = item.split(':')`, which raises `ValueError` (`none`) unless
the split yields exactly two parts. -/
def parseStyleItems :
    List (List Char) → List (List Char × List Char) →
      Option (List (List Char × List Char))
  | [], d => some d
  | item :: rest, d =>
    if item.any (fun ch => ch = ':') then
      match splitOnChar ':' item with
      | [k, v] => parseStyleItems rest (styleInsert d k v)
      | _ => none
    else parseStyleItems rest d

/-- `parse_style` (parse.py lines 8-14). -/
def parse_style (s : List Char) : Option (List (List Char × List Char)) :=
  parseStyleItems (splitOnChar ';' s) []

/-- One entry of the mapping described by the spec for `parseStyleMap`:
split the entry on the FIRST `:` only (key = text before the first
colon, value = all text after it); entries without a colon are
ignored. -/
def styleStep (d : List (List Char × List Char)) (item : List Char) :
    List (List Char × List Char) :=
  if item.any (fun ch => ch = ':') then
    styleInsert d (item.takeWhile (fun ch => ch ≠ ':'))
      ((item.dropWhile (fun ch => ch ≠ ':')).drop 1)
  else d

/-- Mapping described by the spec for `parseStyleMap`: split on `;`,
split each entry on the first `:` only, ignore entries without a colon,
last occurrence of a duplicate key wins. -/
def specStyleMap (s : List Char) : List (List Char × List Char) :=
  (splitOnChar ';' s).foldl styleStep []

/-- Result of `parse_color` (parse.py lines 17-45): the caller-supplied
default (returned for empty input), Python `None` ("no paint"), a
gradient-reference id, or a solid RGBA color. -/
inductive ColorResult where
  | callerDefault : ColorResult
  | noPaint : ColorResult
  | gradient : List Char → ColorResult
  | rgba : ℤ → ℤ → ℤ → ℤ → ColorResult
deriving DecidableEq, Repr

/-- The `try` block of `parse_color` (parse.py lines 26-45): any
exception raised inside it is caught, a diagnostic is printed, and
`None` ("no paint") is returned, so this part is total. -/
def colorTry (s : List Char) : ColorResult :=
  if ("url(#".toList).isPrefixOf s then
    ColorResult.gradient ((s.drop 5).dropLast)
  else if ("rgb".toList).isPrefixOf s then
    match (splitOnChar ',' ((s.drop 4).dropLast)).map (fun x => pyInt (pyStrip x)) with
    | [some r, some g, some b] => ColorResult.rgba r g b 255
    | _ => ColorResult.noPaint
  else if s.length = 6 then
    match pyIntHex (s.take 2), pyIntHex ((s.drop 2).take 2),
        pyIntHex ((s.drop 4).take 2) with
    | some r, some g, some b => ColorResult.rgba r g b 255
    | _, _, _ => ColorResult.noPaint
  else if s.length = 3 then
    match pyIntHex (s.take 1), pyIntHex ((s.drop 1).take 1),
        pyIntHex ((s.drop 2).take 1) with
    | some r, some g, some b =>
      ColorResult.rgba (r * 17) (g * 17) (b * 17) 255
    | _, _, _ => ColorResult.noPaint
  else ColorResult.noPaint

/-- `parse_color` (parse.py lines 17-45).  Empty input returns the
caller's default; the literal string `none` returns "no paint"; then the
input is stripped and its first character is read (`c[0]`, line 24)
BEFORE the `try` block starts, so a whitespace-only input raises an
unhandled `IndexError`, modelled by `none`. -/
def parse_color (c : List Char) : Option ColorResult :=
  if c = [] then some ColorResult.callerDefault
  else if c = "none".toList then some ColorResult.noPaint
  else
    match pyStrip c with
    | [] => none
    | ch :: rest =>
      some (colorTry (if ch = '#' then rest else ch :: rest))

/-! ### svg.py: the path command interpreter state -/

/-- `BEZIER_POINTS` (svg.py line 28), the default subdivision count used
by `curve_to` through `self.bezier_points`. -/
def BEZIER_POINTS : ℕ := 20

/-- `TOLERANCE` (svg.py line 30), the squared-distance threshold of the
adjacent-point merge in `end_path`. -/
def TOLERANCE : ℚ := 1 / 1000

/-- The mutable interpreter state of `SVG`: current point `x`, `y`
(svg.py lines 503-504), the shorthand-control attributes `last_cx`,
`last_cy` (`none` models the attributes never having been assigned, so
that reading them raises `AttributeError`), the in-progress `loop` and
the finished-loop list `path`. -/
structure PState where
  x : ℚ
  y : ℚ
  lastC : Option (ℚ × ℚ)
  loop : List (ℚ × ℚ)
  path : List (List (ℚ × ℚ))
deriving DecidableEq, Repr

/-- A freshly constructed parser: no `curve_to` has run yet, so
`last_cx`/`last_cy` are unset. -/
def initSVGState : PState := ⟨0, 0, none, [], []⟩

/-- `SVG.new_path` (svg.py lines 502-507): resets position, loop and
path but NOT `last_cx`/`last_cy`. -/
def new_path (st : PState) : PState :=
  { st with x := 0, y := 0, loop := [], path := [] }

/-- `SVG.set_position` (svg.py lines 514-517). -/
def set_position (st : PState) (x y : ℚ) : PState :=
  { st with x := x, y := y, loop := st.loop ++ [(x, y)] }

/-- `SVG.line_to` (svg.py lines 580-581), an alias for `set_position`. -/
def line_to (st : PState) (x y : ℚ) : PState := set_position st x y

/-- `SVG.close_path` (svg.py lines 509-512): duplicates the first loop
point onto the end and finalizes the loop.  `self.loop[0]` on an empty
loop raises an unhandled `IndexError`, modelled by `none`. -/
def close_path (st : PState) : Option PState :=
  match st.loop with
  | [] => none
  | p :: _ =>
    some { st with loop := [], path := st.path ++ [st.loop ++ [p]] }

/-- The Bernstein-basis samples precomputed by `curve_to` (svg.py lines
563-570): for `i = 0 .. bezier_points`, `t = i / bezier_points` and the
coefficients `[(1-t)^3, 3t(1-t)^2, 3t^2(1-t), t^3]`. -/
def bezier_coefficients : List (ℚ × ℚ × ℚ × ℚ) :=
  (List.range (BEZIER_POINTS + 1)).map (fun i =>
    ((1 - (i : ℚ) / (BEZIER_POINTS : ℚ)) ^ 3,
     3 * ((i : ℚ) / (BEZIER_POINTS : ℚ)) * (1 - (i : ℚ) / (BEZIER_POINTS : ℚ)) ^ 2,
     3 * ((i : ℚ) / (BEZIER_POINTS : ℚ)) ^ 2 * (1 - (i : ℚ) / (BEZIER_POINTS : ℚ)),
     ((i : ℚ) / (BEZIER_POINTS : ℚ)) ^ 3))

/-- `SVG.curve_to` (svg.py lines 562-578): records `(x2, y2)` as
`last_cx`/`last_cy`, appends one sampled point per Bernstein coefficient
row, and leaves the current point at the last sampled point. -/
def curve_to (st : PState) (x1 y1 x2 y2 x y : ℚ) : PState :=
  { st with
    lastC := some (x2, y2)
    loop := st.loop ++ bezier_coefficients.map (fun t =>
      (t.1 * st.x + t.2.1 * x1 + t.2.2.1 * x2 + t.2.2.2 * x,
       t.1 * st.y + t.2.1 * y1 + t.2.2.1 * y2 + t.2.2.2 * y))
    x := ((bezier_coefficients.map (fun t =>
      (t.1 * st.x + t.2.1 * x1 + t.2.2.1 * x2 + t.2.2.2 * x,
       t.1 * st.y + t.2.1 * y1 + t.2.2.1 * y2 + t.2.2.2 * y))).getLastD (st.x, st.y)).1
    y := ((bezier_coefficients.map (fun t =>
      (t.1 * st.x + t.2.1 * x1 + t.2.2.1 * x2 + t.2.2.2 * x,
       t.1 * st.y + t.2.1 * y1 + t.2.2.1 * y2 + t.2.2.2 * y))).getLastD (st.x, st.y)).2 }

/-- The first-control-point expression of the `S`/`s` opcode handlers
(svg.py lines 366 and 370): `(2*self.x - self.last_cx,
2*self.y - self.last_cy)`, read unconditionally from the attributes set
by the last `curve_to`; `none` models the `AttributeError` raised when
no `curve_to` has ever run. -/
def sFirstControl (st : PState) : Option (ℚ × ℚ) :=
  st.lastC.map (fun lc => (2 * st.x - lc.1, 2 * st.y - lc.2))

/-- Path-data opcodes modelled from the dispatch loop of
`SVG.parse_element` (svg.py lines 350-383): the ones the claims are
about, uppercase absolute and lowercase relative. -/
inductive Op where
  | M : ℚ → ℚ → Op
  | m : ℚ → ℚ → Op
  | L : ℚ → ℚ → Op
  | l : ℚ → ℚ → Op
  | C : ℚ → ℚ → ℚ → ℚ → ℚ → ℚ → Op
  | c : ℚ → ℚ → ℚ → ℚ → ℚ → ℚ → Op
  | S : ℚ → ℚ → ℚ → ℚ → Op
  | s : ℚ → ℚ → ℚ → ℚ → Op
  | Z : Op
deriving DecidableEq, Repr

/-- One iteration of the opcode dispatch loop (svg.py lines 350-383). -/
def runOp (st : PState) : Op → Option PState
  | Op.M x y => some (set_position st x y)
  | Op.m dx dy => some (set_position st (st.x + dx) (st.y + dy))
  | Op.L x y => some (line_to st x y)
  | Op.l dx dy => some (line_to st (st.x + dx) (st.y + dy))
  | Op.C x1 y1 x2 y2 x y => some (curve_to st x1 y1 x2 y2 x y)
  | Op.c x1 y1 x2 y2 x y =>
    some (curve_to st (st.x + x1) (st.y + y1) (st.x + x2) (st.y + y2)
      (st.x + x) (st.y + y))
  | Op.S x2 y2 x y =>
    match st.lastC with
    | none => none
    | some lc =>
      some (curve_to st (2 * st.x - lc.1) (2 * st.y - lc.2) x2 y2 x y)
  | Op.s x2 y2 x y =>
    match st.lastC with
    | none => none
    | some lc =>
      some (curve_to st (2 * st.x - lc.1) (2 * st.y - lc.2)
        (st.x + x2) (st.y + y2) (st.x + x) (st.y + y))
  | Op.Z => close_path st

/-- The opcode loop run over a whole token list; the first unhandled
exception aborts it. -/
def runOps (ops : List Op) (st : PState) : Option PState :=
  ops.foldlM runOp st

/-- The `polyline`/`polygon` point loop (svg.py lines 446-455): numbers
are consumed two at a time by `pnext`; a dangling single number makes
`pathdata.pop(0)` raise `IndexError` (`none`). -/
def polyPoints : List ℚ → PState → Option PState
  | [], st => some st
  | [_], _ => none
  | px :: py :: rest, st => polyPoints rest (line_to st px py)

/-- A `polygon` element (svg.py lines 446-458): `new_path`, the point
loop, then `close_path` because the tag is `polygon`. -/
def runPolygon (nums : List ℚ) : Option PState :=
  (polyPoints nums (new_path initSVGState)).bind close_path

/-! ### svg.py: `end_path` adjacent-point merge and `arc_to` radicand -/

/-- The squared distance `(pt[0]-loop[-1][0])**2 + (pt[1]-loop[-1][1])**2`
compared against `TOLERANCE` in `end_path` (svg.py line 591). -/
def distSq (p q : ℚ × ℚ) : ℚ := (p.1 - q.1) ^ 2 + (p.2 - q.2) ^ 2

/-- The inner loop of the merge pass of `end_path` (svg.py lines
590-592): walk the remaining points keeping one only when its squared
distance to the last kept point exceeds `TOLERANCE`. -/
def mergeFrom (lastKept : ℚ × ℚ) : List (ℚ × ℚ) → List (ℚ × ℚ)
  | [] => []
  | pt :: rest =>
    if distSq pt lastKept > TOLERANCE then pt :: mergeFrom pt rest
    else mergeFrom lastKept rest

/-- The per-loop merge pass of `end_path` (svg.py lines 588-592):
empty loops are skipped (`if not orig_loop: continue`); otherwise the
kept list starts as `[orig_loop[0]]` and every point of the original
loop (including the first again) is offered to the inner loop. -/
def mergePass : List (ℚ × ℚ) → List (ℚ × ℚ)
  | [] => []
  | p0 :: rest => p0 :: mergeFrom p0 (p0 :: rest)

/-- The rotated half-chord `(x_, y_)` of `SVG.arc_to` (svg.py lines
526-531), with `cp`, `sp` standing for `cos(phi)`, `sin(phi)`:
`dx = .5*(x1-x2)`, `dy = .5*(y1-y2)`, `x_ = cp*dx + sp*dy`,
`y_ = -sp*dx + cp*dy`. -/
def arcXY (cp sp x1 y1 x2 y2 : ℚ) : ℚ × ℚ :=
  (cp * ((x1 - x2) / 2) + sp * ((y1 - y2) / 2),
   -sp * ((x1 - x2) / 2) + cp * ((y1 - y2) / 2))

/-- The radicand computation and clamp of `SVG.arc_to` (svg.py lines
532-535): `r2 = ((rx*ry)**2 - (rx*y_)**2 - (ry*x_)**2) /
((rx*y_)**2 + (ry*x_)**2)`, then `if r2 < 0: r2 = 0`.  A zero
denominator raises `ZeroDivisionError` in Python, modelled by `none`;
otherwise the returned value is what `math.sqrt` receives. -/
def arcRadicand (rx ry cp sp x1 y1 x2 y2 : ℚ) : Option ℚ :=
  if (rx * (arcXY cp sp x1 y1 x2 y2).2) ^ 2 +
      (ry * (arcXY cp sp x1 y1 x2 y2).1) ^ 2 = 0 then none
  else
    some (if ((rx * ry) ^ 2 - (rx * (arcXY cp sp x1 y1 x2 y2).2) ^ 2 -
          (ry * (arcXY cp sp x1 y1 x2 y2).1) ^ 2) /
          ((rx * (arcXY cp sp x1 y1 x2 y2).2) ^ 2 +
           (ry * (arcXY cp sp x1 y1 x2 y2).1) ^ 2) < 0 then 0
      else ((rx * ry) ^ 2 - (rx * (arcXY cp sp x1 y1 x2 y2).2) ^ 2 -
          (ry * (arcXY cp sp x1 y1 x2 y2).1) ^ 2) /
          ((rx * (arcXY cp sp x1 y1 x2 y2).2) ^ 2 +
           (ry * (arcXY cp sp x1 y1 x2 y2).1) ^ 2))

/-! ### svg.py: the document walk (`parse_doc` / `parse_element`) -/

mutual
/-- An SVG element as seen by the walk: a path id, whether its own
geometry data is well-formed, and its child elements. -/
inductive Elem where
  | node : ℕ → Bool → Forest → Elem
/-- An ordered list of sibling elements. -/
inductive Forest where
  | nil : Forest
  | cons : Elem → Forest → Forest
end

mutual
/-- `SVG.parse_element` (svg.py lines 298-500): parsing the element's own
geometry can raise (malformed numeric or attribute data), which escapes
`parse_element`; the recursion over children (lines 493-498) wraps each
child in `try`/`except` that prints a diagnostic and then RE-RAISES, so
a child's exception also escapes. -/
def parse_element : Elem → Except Unit (List ℕ)
  | Elem.node pid geomOk children =>
    if geomOk then
      match parse_children children with
      | Except.error e => Except.error e
      | Except.ok rest => Except.ok (pid :: rest)
    else Except.error ()

/-- The child loop shared by `SVG.parse_element` (svg.py lines 493-498)
and `SVG.parse_doc` (lines 291-296): each child is parsed inside a
`try`/`except` that prints a diagnostic and re-raises, so the first
failing child aborts the whole loop. -/
def parse_children : Forest → Except Unit (List ℕ)
  | Forest.nil => Except.ok []
  | Forest.cons child rest =>
    match parse_element child with
    | Except.error e => Except.error e
    | Except.ok ids =>
      match parse_children rest with
      | Except.error e => Except.error e
      | Except.ok ids2 => Except.ok (ids ++ ids2)
end

/-- `SVG.parse_doc` (svg.py lines 273-296): the loop over the root's
children; its per-child `try`/`except` prints a diagnostic and
re-raises (line 296), so the exception escapes `parse_doc` and no
`Document` is produced. -/
def parse_doc (roots : Forest) : Except Unit (List ℕ) :=
  parse_children roots

mutual
/-- Every element of the tree has well-formed geometry data. -/
def elemOk : Elem → Bool
  | Elem.node _ geomOk children => geomOk && forestOk children
/-- Every element of the forest has well-formed geometry data. -/
def forestOk : Forest → Bool
  | Forest.nil => true
  | Forest.cons child rest => elemOk child && forestOk rest
end

mutual
/-- Preorder list of the path ids of all elements of the tree. -/
def elemIds : Elem → List ℕ
  | Elem.node pid _ children => pid :: forestIds children
/-- Preorder list of the path ids of all elements of the forest. -/
def forestIds : Forest → List ℕ
  | Forest.nil => []
  | Forest.cons child rest => elemIds child ++ forestIds rest
end

/-! ### Concrete data used by counterexamples and witnesses -/

/-- Path-data token sequence `M 0 0 C 1 1 5 5 6 6 L 10 10`: a cubic
(whose second control point is `(5, 5)`) followed by a straight line, so
the command before any following `S` is NOT a cubic. -/
def demoOps5 : List Op := [Op.M 0 0, Op.C 1 1 5 5 6 6, Op.L 10 10]

/-- An interpreter state whose current point is `(10, 10)` and whose
stored shorthand control point is `(5, 5)`. -/
def demoSState : PState := ⟨10, 10, some (5, 5), [], []⟩

/-! ## Theorems -/

/-- Claim C2: for every affine transform whose determinant `ad - bc` is
nonzero, the composition `T * T.inverse()` (in `Matrix.__mul__`'s
argument order) equals the identity transform, exactly, over exact
arithmetic. -/
theorem mul_inverse_eq_id (m : Matrix ℚ) (h : m.det ≠ 0) :
    Option.map m.mul m.inverse = some Matrix.idM := by
  rw [Matrix.inverse, if_neg h]
  have hd : m.a * m.d - m.b * m.c ≠ 0 := h
  simp only [Option.map_some', Option.some.injEq, Matrix.mul, Matrix.idM,
    Matrix.det, Matrix.mk.injEq]
  refine ⟨?_, ?_, ?_, ?_, ?_, ?_⟩ <;> field_simp <;> ring

/-- Witness for C2 at the concrete transform `[2, 0, 0, 3, 5, 7]`. -/
theorem mul_inverse_eq_id_witness :
    Matrix.det ⟨2, 0, 0, 3, 5, 7⟩ ≠ 0 ∧
    Option.map (Matrix.mul ⟨2, 0, 0, 3, 5, 7⟩)
      (Matrix.inverse ⟨2, 0, 0, 3, 5, 7⟩) = some Matrix.idM :=
  ⟨by norm_num [Matrix.det],
   mul_inverse_eq_id ⟨2, 0, 0, 3, 5, 7⟩ (by norm_num [Matrix.det])⟩

/-- Claim C4 counterexample: at the concrete zero-determinant matrix
`[1, 2, 2, 4, 0, 0]`, `Matrix.inverse` raises `ZeroDivisionError`
(modelled by `none`) instead of returning a defined fallback value, so
the call does NOT return a defined result. -/
theorem inverse_zero_det_raises :
    Matrix.det ⟨1, 2, 2, 4, 0, 0⟩ = 0 ∧
    Matrix.inverse ⟨1, 2, 2, 4, 0, 0⟩ = none := by
  have h : Matrix.det ⟨1, 2, 2, 4, 0, 0⟩ = 0 := by norm_num [Matrix.det]
  exact ⟨h, by rw [Matrix.inverse, if_pos h]⟩

/-- Claim C4 (amended): for every matrix whose determinant is zero,
`inverse()` raises `ZeroDivisionError` — the fault propagates to the
caller, and no fallback value is produced. -/
theorem inverse_zero_det_none (m : Matrix ℚ) (h : m.det = 0) :
    m.inverse = none := by
  rw [Matrix.inverse, if_pos h]

/-- Witness for the amended C4 at the concrete matrix
`[1, 1, 1, 1, 2, 3]`. -/
theorem inverse_zero_det_none_witness :
    Matrix.det ⟨1, 1, 1, 1, 2, 3⟩ = 0 ∧
    Matrix.inverse ⟨1, 1, 1, 1, 2, 3⟩ = none :=
  ⟨by norm_num [Matrix.det],
   inverse_zero_det_none ⟨1, 1, 1, 1, 2, 3⟩ (by norm_num [Matrix.det])⟩

/-- Claim C8: the parsed rotate transform has linear part
`[cos θ, sin θ; -sin θ, cos θ]` and translation
`(-cx cos θ + cy sin θ + cx, -cx sin θ - cy cos θ + cy)` (θ in radians
from degrees) — equivalently, applying it rotates any point by θ about
the pivot `(cx, cy)` — and a rotate with only an angle supplied uses
pivot `(0, 0)`. -/
theorem rotate_matrix_spec (deg cx cy px py : ℝ) :
    rotateMatrix deg cx cy =
      { a := Real.cos (deg * (Real.pi / 180))
        b := Real.sin (deg * (Real.pi / 180))
        c := -Real.sin (deg * (Real.pi / 180))
        d := Real.cos (deg * (Real.pi / 180))
        e := -cx * Real.cos (deg * (Real.pi / 180)) +
          cy * Real.sin (deg * (Real.pi / 180)) + cx
        f := -cx * Real.sin (deg * (Real.pi / 180)) -
          cy * Real.cos (deg * (Real.pi / 180)) + cy } ∧
    (rotateMatrix deg cx cy).apply (px, py) =
      (cx + Real.cos (deg * (Real.pi / 180)) * (px - cx) -
        Real.sin (deg * (Real.pi / 180)) * (py - cy),
       cy + Real.sin (deg * (Real.pi / 180)) * (px - cx) +
        Real.cos (deg * (Real.pi / 180)) * (py - cy)) ∧
    rotateParse [deg] = some (rotateMatrix deg 0 0) := by
  refine ⟨rfl, ?_, rfl⟩
  simp only [rotateMatrix, Matrix.apply, Prod.mk.injEq]
  constructor <;> ring

/-- Claim C3: `parse_color` behaves as specified on empty input and on
the literal `none`, but a whitespace-only input is stripped to the empty
string BEFORE the `try` block, so `c[0]` raises an unhandled
`IndexError` (modelled by `none`) instead of returning "no paint". -/
theorem parse_color_whitespace_crash :
    parse_color ("   ".toList) = none ∧
    parse_color [] = some ColorResult.callerDefault ∧
    parse_color ("none".toList) = some ColorResult.noPaint := by decide

/-- Claim C10: `close_path` reached with an empty in-progress loop
raises an unhandled `IndexError` (modelled by `none`): concretely, a
`polygon` element whose points attribute contains no numbers, and path
data whose first opcode is `Z`. -/
theorem close_path_empty_loop_raises :
    runPolygon [] = none ∧
    runOps [Op.Z] (new_path initSVGState) = none ∧
    close_path (new_path initSVGState) = none := ⟨rfl, rfl, rfl⟩

/-- Claim C5 counterexample: after `M 0 0 C 1 1 5 5 6 6 L 10 10` the
previous command is `L` (not a cubic) and the current point is
`(10, 10)`, yet the `S` handler computes its first control point as
`(15, 15)` — the reflection of the stale stored control `(5, 5)` — not
the current point; and an `S` with no prior cubic at all aborts with an
`AttributeError` (modelled by `none`) rather than not failing. -/
theorem s_opcode_ignores_prev_command :
    (runOps demoOps5 initSVGState).bind sFirstControl = some (15, 15) ∧
    (runOps demoOps5 initSVGState).map (fun st => (st.x, st.y)) =
      some (10, 10) ∧
    ((15 : ℚ), (15 : ℚ)) ≠ ((10 : ℚ), (10 : ℚ)) ∧
    runOps [Op.M 0 0, Op.S 1 1 2 2] initSVGState = none := by
  refine ⟨?_, rfl, by norm_num, rfl⟩
  show sFirstControl
    (line_to (curve_to (set_position initSVGState 0 0) 1 1 5 5 6 6) 10 10) =
    some (15, 15)
  simp only [sFirstControl, line_to, set_position, curve_to, Option.map_some']
  norm_num

/-- Claim C5 (amended): `S`/`s` always takes its first control point to
be the reflection of the stored `last_cx`/`last_cy` — the second control
point of the most recent `curve_to`, whatever command came in between —
through the current point; when no cubic has ever been processed the
attributes are unset and the opcode fails with `AttributeError`. -/
theorem s_opcode_uses_stored_control (st : PState) (x2 y2 x y lcx lcy : ℚ)
    (h : st.lastC = some (lcx, lcy)) :
    runOp st (Op.S x2 y2 x y) =
      some (curve_to st (2 * st.x - lcx) (2 * st.y - lcy) x2 y2 x y) ∧
    runOp st (Op.s x2 y2 x y) =
      some (curve_to st (2 * st.x - lcx) (2 * st.y - lcy)
        (st.x + x2) (st.y + y2) (st.x + x) (st.y + y)) ∧
    ∀ st2 : PState, st2.lastC = none → runOp st2 (Op.S x2 y2 x y) = none := by
  refine ⟨by simp [runOp, h], by simp [runOp, h], ?_⟩
  intro st2 h2
  simp [runOp, h2]

/-- Witness for the amended C5 at the state `demoSState` (current point
`(10, 10)`, stored control `(5, 5)`). -/
theorem s_opcode_uses_stored_control_witness :
    demoSState.lastC = some (5, 5) ∧
    (runOp demoSState (Op.S 1 2 3 4) =
      some (curve_to demoSState (2 * demoSState.x - 5) (2 * demoSState.y - 5)
        1 2 3 4) ∧
    runOp demoSState (Op.s 1 2 3 4) =
      some (curve_to demoSState (2 * demoSState.x - 5) (2 * demoSState.y - 5)
        (demoSState.x + 1) (demoSState.y + 2) (demoSState.x + 3)
        (demoSState.y + 4)) ∧
    ∀ st2 : PState, st2.lastC = none → runOp st2 (Op.S 1 2 3 4) = none) :=
  ⟨rfl, s_opcode_uses_stored_control demoSState 1 2 3 4 5 5 rfl⟩

/-- Every point kept by the inner merge loop is at squared distance
greater than `TOLERANCE` from the point kept just before it. -/
theorem mergeFrom_chain (lastKept : ℚ × ℚ) (l : List (ℚ × ℚ)) :
    List.Chain (fun p q => distSq q p > TOLERANCE) lastKept
      (mergeFrom lastKept l) := by
  induction l generalizing lastKept with
  | nil => exact List.Chain.nil
  | cons pt rest ih =>
    by_cases hc : distSq pt lastKept > TOLERANCE
    · simp only [mergeFrom, if_pos hc]
      exact List.Chain.cons hc (ih pt)
    · simp only [mergeFrom, if_neg hc]
      exact ih lastKept

/-- A list whose consecutive points (starting from the last kept point)
are all farther apart than `TOLERANCE` passes through the inner merge
loop unchanged. -/
theorem mergeFrom_of_chain (lastKept : ℚ × ℚ) (l : List (ℚ × ℚ))
    (h : List.Chain (fun p q => distSq q p > TOLERANCE) lastKept l) :
    mergeFrom lastKept l = l := by
  induction l generalizing lastKept with
  | nil => rfl
  | cons pt rest ih =>
    cases h with
    | cons hr hrest =>
      simp only [mergeFrom, if_pos hr]
      rw [ih pt hrest]

/-- Claim C9: the adjacent-point merge pass of `end_path` is idempotent:
running it on an already-merged loop removes no further points. -/
theorem merge_pass_idempotent (l : List (ℚ × ℚ)) :
    mergePass (mergePass l) = mergePass l := by
  cases l with
  | nil => rfl
  | cons p0 rest =>
    simp only [mergePass]
    congr 1
    have h0 : ¬ distSq p0 p0 > TOLERANCE := by
      simp [distSq, TOLERANCE]
    simp only [mergeFrom, if_neg h0]
    exact mergeFrom_of_chain p0 (mergeFrom p0 rest) (mergeFrom_chain p0 rest)

/-- Claim C7: for nonzero radii, any rotation `(cp, sp)` on the unit
circle and endpoints with a nonzero chord, the radicand division of
`arc_to` is well defined (the code does not fail) and the clamp makes
the value handed to `math.sqrt` nonnegative. -/
theorem arc_radicand_clamped (rx ry cp sp x1 y1 x2 y2 : ℚ)
    (hrx : rx ≠ 0) (hry : ry ≠ 0) (htrig : cp ^ 2 + sp ^ 2 = 1)
    (hchord : (x1, y1) ≠ (x2, y2)) :
    ∃ v, arcRadicand rx ry cp sp x1 y1 x2 y2 = some v ∧ 0 ≤ v := by
  have hden : (rx * (arcXY cp sp x1 y1 x2 y2).2) ^ 2 +
      (ry * (arcXY cp sp x1 y1 x2 y2).1) ^ 2 ≠ 0 := by
    intro h0
    have hA : (rx * (arcXY cp sp x1 y1 x2 y2).2) ^ 2 = 0 := by
      nlinarith [sq_nonneg (rx * (arcXY cp sp x1 y1 x2 y2).2),
        sq_nonneg (ry * (arcXY cp sp x1 y1 x2 y2).1)]
    have hB : (ry * (arcXY cp sp x1 y1 x2 y2).1) ^ 2 = 0 := by
      nlinarith [sq_nonneg (rx * (arcXY cp sp x1 y1 x2 y2).2),
        sq_nonneg (ry * (arcXY cp sp x1 y1 x2 y2).1)]
    have hw : (arcXY cp sp x1 y1 x2 y2).2 = 0 := by
      rcases mul_eq_zero.mp ((pow_eq_zero_iff two_ne_zero).mp hA) with h | h
      · exact absurd h hrx
      · exact h
    have hu : (arcXY cp sp x1 y1 x2 y2).1 = 0 := by
      rcases mul_eq_zero.mp ((pow_eq_zero_iff two_ne_zero).mp hB) with h | h
      · exact absurd h hry
      · exact h
    simp only [arcXY] at hu hw
    have hx : x1 = x2 := by
      linear_combination (2 * cp) * hu - (2 * sp) * hw - (x1 - x2) * htrig
    have hy : y1 = y2 := by
      linear_combination (2 * sp) * hu + (2 * cp) * hw - (y1 - y2) * htrig
    exact hchord (by rw [hx, hy])
  simp only [arcRadicand, if_neg hden]
  refine ⟨_, rfl, ?_⟩
  split
  · exact le_refl 0
  · rename_i hlt
    exact not_lt.mp hlt

/-- Witness for C7 at radii `(1, 1)`, no rotation, endpoints `(0, 0)`
and `(10, 0)` — a chord too long for the radii, so the raw radicand is
negative and the clamp fires. -/
theorem arc_radicand_clamped_witness :
    ((1 : ℚ) ≠ 0) ∧ ((1 : ℚ) ≠ 0) ∧ ((1 : ℚ) ^ 2 + (0 : ℚ) ^ 2 = 1) ∧
    (((0 : ℚ), (0 : ℚ)) ≠ ((10 : ℚ), (0 : ℚ))) ∧
    ∃ v, arcRadicand 1 1 1 0 0 0 10 0 = some v ∧ 0 ≤ v :=
  ⟨by norm_num, by norm_num, by norm_num, by norm_num [Prod.ext_iff],
   arc_radicand_clamped 1 1 1 0 0 0 10 0 (by norm_num) (by norm_num)
     (by norm_num) (by norm_num [Prod.ext_iff])⟩

/-- Python `str.split` never yields an empty list of fields. -/
theorem splitOnChar_ne_nil (sep : Char) (l : List Char) :
    splitOnChar sep l ≠ [] := by
  induction l with
  | nil => simp [splitOnChar]
  | cons ch rest ih =>
    simp only [splitOnChar]
    by_cases h : ch = sep
    · rw [if_pos h]
      simp
    · rw [if_neg h]
      cases hr : splitOnChar sep rest with
      | nil => simp
      | cons g gs => simp

/-- A split yielding a single field returns the whole string, and the
separator does not occur in it. -/
theorem splitOnChar_single (sep : Char) (l x : List Char)
    (h : splitOnChar sep l = [x]) :
    x = l ∧ l.any (fun ch => ch = sep) = false := by
  induction l generalizing x with
  | nil =>
    simp only [splitOnChar, List.cons.injEq, and_true] at h
    exact ⟨h.symm, rfl⟩
  | cons ch rest ih =>
    simp only [splitOnChar] at h
    by_cases hcs : ch = sep
    · rw [if_pos hcs] at h
      simp only [List.cons.injEq] at h
      exact absurd h.2 (splitOnChar_ne_nil sep rest)
    · rw [if_neg hcs] at h
      cases hr : splitOnChar sep rest with
      | nil => exact absurd hr (splitOnChar_ne_nil sep rest)
      | cons g gs =>
        rw [hr] at h
        simp only [List.cons.injEq] at h
        obtain ⟨hx, hgs⟩ := h
        subst hgs
        obtain ⟨hg, hany⟩ := ih g hr
        subst hg
        refine ⟨hx.symm, ?_⟩
        simp [hany, hcs]

/-- A split yielding exactly two fields returns the text before the
first separator and the text after it, and the separator occurs. -/
theorem splitOnChar_pair (sep : Char) (l : List Char) :
    ∀ k v, splitOnChar sep l = [k, v] →
      k = l.takeWhile (fun ch => ch ≠ sep) ∧
      v = (l.dropWhile (fun ch => ch ≠ sep)).drop 1 ∧
      l.any (fun ch => ch = sep) = true := by
  induction l with
  | nil =>
    intro k v h
    simp [splitOnChar] at h
  | cons ch rest ih =>
    intro k v h
    simp only [splitOnChar] at h
    by_cases hcs : ch = sep
    · rw [if_pos hcs] at h
      simp only [List.cons.injEq] at h
      obtain ⟨hk, hrest⟩ := h
      obtain ⟨hv, _⟩ := splitOnChar_single sep rest v hrest
      subst hk hv hcs
      simp
    · rw [if_neg hcs] at h
      cases hr : splitOnChar sep rest with
      | nil => exact absurd hr (splitOnChar_ne_nil sep rest)
      | cons g gs =>
        rw [hr] at h
        simp only [List.cons.injEq] at h
        obtain ⟨hk, hgs⟩ := h
        subst hgs
        obtain ⟨hg, hv, hany⟩ := ih g v hr
        subst hg
        refine ⟨?_, ?_, ?_⟩
        · rw [← hk]
          simp [List.takeWhile_cons, hcs, decide_not]
        · simp [List.dropWhile_cons, hcs, hv, decide_not]
        · simp [hany]

/-- When the item loop of `parse_style` succeeds, it computes exactly
the spec's first-colon-split fold. -/
theorem parseStyleItems_sound (items : List (List Char)) :
    ∀ d res, parseStyleItems items d = some res →
      res = items.foldl styleStep d := by
  induction items with
  | nil =>
    intro d res h
    simp only [parseStyleItems, Option.some.injEq] at h
    simp [h.symm]
  | cons item rest ih =>
    intro d res h
    simp only [parseStyleItems] at h
    by_cases hcol : item.any (fun ch => ch = ':') = true
    · rw [if_pos hcol] at h
      cases hsp : splitOnChar ':' item with
      | nil => rw [hsp] at h; exact absurd h (by simp)
      | cons k tail =>
        cases tail with
        | nil => rw [hsp] at h; exact absurd h (by simp)
        | cons v tail2 =>
          cases tail2 with
          | nil =>
            rw [hsp] at h
            obtain ⟨hk, hv, _⟩ := splitOnChar_pair ':' item k v hsp
            have hres := ih (styleInsert d k v) res h
            rw [hres, List.foldl_cons]
            rw [styleStep, if_pos hcol, hk, hv]
          | cons w tail3 => rw [hsp] at h; exact absurd h (by simp)
    · rw [if_neg hcol] at h
      have hres := ih d res h
      rw [hres, List.foldl_cons]
      rw [styleStep, if_neg hcol]

/-- Claim C6 counterexample: on the entry `a:b:c` (whose value contains
a colon) `parse_style` raises an unhandled `ValueError` from
`key, value = item.split(':')` (modelled by `none`) instead of keeping
the remainder `b:c` as the value, which is what the spec's first-colon
split would produce. -/
theorem parse_style_colon_value_raises :
    parse_style ("a:b:c".toList) = none ∧
    specStyleMap ("a:b:c".toList) = [("a".toList, "b:c".toList)] := by decide

/-- Claim C6 (amended): whenever `parse_style` returns a mapping
(equivalently, whenever no entry contains more than one colon), that
mapping is the spec's: split on `;`, split each entry on the first `:`,
ignore entries without a colon, last duplicate key wins; but an entry
whose value itself contains a colon makes `parse_style` raise an
unhandled `ValueError` instead of being parsed. -/
theorem parse_style_first_colon (s : List Char)
    (d : List (List Char × List Char)) (h : parse_style s = some d) :
    d = specStyleMap s :=
  parseStyleItems_sound (splitOnChar ';' s) [] d h

/-- Witness for the amended C6 on a style string with a duplicate key:
the last `fill` wins and the result matches the spec mapping. -/
theorem parse_style_first_colon_witness :
    parse_style ("fill:red;stroke:blue;fill:green".toList) =
      some [("fill".toList, "green".toList),
            ("stroke".toList, "blue".toList)] ∧
    [("fill".toList, "green".toList), ("stroke".toList, "blue".toList)] =
      specStyleMap ("fill:red;stroke:blue;fill:green".toList) :=
  ⟨by decide, parse_style_first_colon _ _ (by decide)⟩

mutual
/-- `parse_element` succeeds (with the preorder path ids of its subtree)
exactly when every element of the subtree has well-formed geometry;
otherwise the exception propagates out of it. -/
theorem parse_element_eq : ∀ e : Elem,
    parse_element e =
      (if elemOk e then Except.ok (elemIds e) else Except.error ())
  | Elem.node pid geomOk children => by
    have hc := parse_children_eq children
    cases geomOk with
    | false => simp [parse_element, elemOk]
    | true =>
      by_cases hok : forestOk children = true
      · simp [parse_element, elemOk, elemIds, hc, hok]
      · simp [parse_element, elemOk, elemIds, hc, hok,
          Bool.not_eq_true]

/-- The child loop succeeds exactly when every element of the forest has
well-formed geometry; the first failure propagates. -/
theorem parse_children_eq : ∀ f : Forest,
    parse_children f =
      (if forestOk f then Except.ok (forestIds f) else Except.error ())
  | Forest.nil => by simp [parse_children, forestOk, forestIds]
  | Forest.cons child rest => by
    have h1 := parse_element_eq child
    have h2 := parse_children_eq rest
    by_cases hok1 : elemOk child = true <;>
      by_cases hok2 : forestOk rest = true <;>
        simp [parse_children, forestOk, forestIds, h1, h2, hok1, hok2,
          Bool.not_eq_true]
end

/-- Claim C1 counterexample: a document whose first root element has
malformed geometry and whose second is well formed.  The diagnostic is
printed but the exception is re-raised (svg.py line 296), so the whole
parse aborts with the exception instead of producing a `Document`
containing the well-formed sibling's path — even though the well-formed
element parses fine on its own. -/
theorem malformed_sibling_aborts_doc :
    parse_doc (Forest.cons (Elem.node 1 false Forest.nil)
        (Forest.cons (Elem.node 2 true Forest.nil) Forest.nil)) =
      Except.error () ∧
    parse_doc (Forest.cons (Elem.node 2 true Forest.nil) Forest.nil) =
      Except.ok [2] := by
  constructor <;> rfl

/-- Claim C1 (amended): a malformed element's diagnostic is logged but
the exception is re-raised, aborting the entire document parse; a
`Document` is produced only when every element of the tree is well
formed, and it then contains the path of every element. -/
theorem parse_doc_all_or_nothing (roots : Forest) :
    parse_doc roots =
      (if forestOk roots then Except.ok (forestIds roots)
       else Except.error ()) :=
  parse_children_eq roots

end Squirtle
